import Mathlib

/-!
# Verification of the office-brain conversation and retrieval core

Shallow embedding of the Python sources `src/app.py` and
`src/create_vector_db.py` of the office-brain repository (a Streamlit
retrieval-augmented chat assistant), together with proofs of the frozen
specification claims.

Modelling conventions:
* `st.session_state` fields relevant to the claims (`messages`,
  `full_history`, `current_session_id`, `guest_mode`, `username`) become the
  fields of `AppState`; the durable per-identity JSON files become a map
  `Files` from file name to optional file content.
* Python's insertion-ordered `dict` used for `full_history` becomes an
  association list `History`: assignment `d[k] = v` replaces the value in
  place when the key is present (keeping its position) and appends otherwise
  (`upsert`); `del d[k]` removes the entry; iteration is list order.
* External service calls (Gemini embedding / completion, FAISS search and
  load) are parametrised by their outcome as an `Except`/`Bool` argument: a
  `.error` value stands for the Python exception raised by the call.
* Strings are Lean `String`s; Python `s[:n]` is `String.take s n` and
  `"sep".join xs` is `String.intercalate "sep" xs`.
-/

/-- A chat message, `{"role": ..., "content": ...}` in `app.py`. -/
structure Message where
  role : String
  content : String
deriving DecidableEq, Repr

/-- The value stored in `full_history` for one session id
(`{"title": ..., "messages": ..., "timestamp": ...}`, `app.py` lines 573-577). -/
structure SessionData where
  title : String
  messages : List Message
  timestamp : String
deriving DecidableEq, Repr

/-- `full_history`: Python's insertion-ordered dict from session id to session
data, modelled as an association list in insertion order. -/
abbrev History := List (String × SessionData)

/-- Durable storage: file name to optional JSON content (`none` means the file
is absent or unparseable, both of which `load_history` treats alike). -/
abbrev Files := String → Option History

/-- Membership test `k in d` on the keys of `full_history`. -/
def hasKey (h : History) (k : String) : Bool :=
  h.any (fun p => p.1 = k)

/-- Python dict assignment `full_history[sid] = data` (`app.py` line 573):
replaces in place when the key is present, appends otherwise. -/
def upsert (h : History) (k : String) (v : SessionData) : History :=
  if hasKey h k then h.map (fun p => if p.1 = k then (k, v) else p)
  else h ++ [(k, v)]

/-- Python `del full_history[sid]` (`app.py` line 486): removes the entry for
the key, preserving the order of the rest. -/
def dictDelete (h : History) (k : String) : History :=
  h.filter (fun p => p.1 ≠ k)

/-- The per-identity history file name, `f"history_{username}.json"`
(`app.py` lines 66 and 79). -/
def historyFile (username : String) : String :=
  "history_" ++ username ++ ".json"

/-- `load_history(username)` (`app.py` lines 61-73): falsy username (Guest
fallback) yields an empty dict; otherwise the file's parsed content, or an
empty dict when the file is absent or unreadable. -/
def load_history (files : Files) (username : Option String) : History :=
  match username with
  | none => []
  | some u => if u = "" then [] else (files (historyFile u)).getD []

/-- `save_history(history, username)` (`app.py` lines 75-81): no-op for a
falsy username, otherwise writes the whole history to the identity's file. -/
def save_history (files : Files) (h : History) (username : Option String) : Files :=
  match username with
  | none => files
  | some u =>
    if u = "" then files
    else fun n => if n = historyFile u then some h else files n

/-- `get_session_title(messages)` (`app.py` lines 126-130): first 30
characters of the first user message plus `"..."`, else `"New Chat"`. -/
def get_session_title (messages : List Message) : String :=
  match messages with
  | [] => "New Chat"
  | m :: rest =>
    if m.role = "user" then m.content.take 30 ++ "..."
    else get_session_title rest

/-- A sidebar entry `{"id": sid, "title": ..., "timestamp": ...}`
(`app.py` line 463). -/
structure SessionSummary where
  id : String
  title : String
  timestamp : String
deriving DecidableEq, Repr

/-- `sessions_list` (`app.py` lines 461-463): one summary per history entry,
in dict iteration (= insertion) order. -/
def sessions_list (h : History) : List SessionSummary :=
  h.map (fun p => ⟨p.1, p.2.title, p.2.timestamp⟩)

/-- The order in which the sidebar displays sessions:
`for session in reversed(sessions_list)` (`app.py` line 468). -/
def list_sessions (h : History) : List SessionSummary :=
  (sessions_list h).reverse

/-- The relevant per-interaction state: the `st.session_state` fields the
claims are about plus the durable files. -/
structure AppState where
  messages : List Message
  full_history : History
  current_session_id : String
  guest_mode : Bool
  username : Option String
  files : Files

/-- The delete-button handler (`app.py` lines 484-492): if the id is present,
remove it, write through for non-guests, and if the deleted session was the
active one, switch to a fresh id (`uuid4`, passed in as `freshId`) with an
empty message list. Absent ids leave the state untouched. -/
def deleteSession (s : AppState) (sid : String) (freshId : String) : AppState :=
  if hasKey s.full_history sid then
    let h := dictDelete s.full_history sid
    let files' := if s.guest_mode then s.files else save_history s.files h s.username
    if s.current_session_id = sid then
      { s with full_history := h, files := files',
               current_session_id := freshId, messages := [] }
    else
      { s with full_history := h, files := files' }
  else s

/-- The loaded/persisted FAISS artifact, abstracted to its passage texts. -/
abbrev Index := List String

/-- The durable artifacts `load_faiss_index` and `create_vector_db` touch:
the `faiss_index` directory and the `knowledge.txt` corpus. -/
structure FS where
  faissIndex : Option Index
  knowledge : Option String
deriving DecidableEq, Repr

/-- `load_faiss_index()` (`app.py` lines 83-124). When no index directory
exists but a corpus does, it chunks, embeds and saves (`embedRes` is the
outcome of the embed-and-build step; `.error` models
`EmbeddingServiceError`, caught and turned into `None` with no write). It
then loads the saved artifact (`loadOk` is whether `FAISS.load_local`
succeeds; its failure is caught and yields `None`). Returns the updated
file system and the loaded index, if any. -/
def load_faiss_index (fs : FS) (embedRes : Except Unit Index) (loadOk : Bool) :
    FS × Option Index :=
  match fs.faissIndex with
  | none =>
    match fs.knowledge with
    | none => (fs, none)
    | some _ =>
      match embedRes with
      | .error _ => (fs, none)
      | .ok idx =>
        let fs' : FS := { fs with faissIndex := some idx }
        (fs', if loadOk then some idx else none)
  | some idx => (fs, if loadOk then some idx else none)

/-- `create_vector_db()` (`create_vector_db.py` lines 14-37): no corpus means
an early return; an embedding failure (`.error`) raises before `save_local`,
so the file system is unchanged; on success the index is written. -/
def create_vector_db (fs : FS) (embedRes : Except Unit Index) : FS :=
  match fs.knowledge with
  | none => fs
  | some _ =>
    match embedRes with
    | .error _ => fs
    | .ok idx => { fs with faissIndex := some idx }

/-- The retrieval block (`app.py` lines 538-544): `context = ""`; when an
index is loaded, `similarity_search` (outcome `searchRes`; `.error` models
any raised exception) yields the documents, any failure being caught and
falling back to no documents. -/
def retrieveDocs (vectorDb : Option Index) (searchRes : Except Unit (List String)) :
    List String :=
  match vectorDb with
  | none => []
  | some _ =>
    match searchRes with
    | .error _ => []
    | .ok docs => docs

/-- `"\n\n".join([d.page_content for d in docs])` (`app.py` line 542). -/
def joinContext (docs : List String) : String :=
  String.intercalate "\n\n" docs

/-- The fixed instruction preamble `base_system_prompt` (`app.py` lines
517-521). -/
def base_system_prompt : String :=
  "\n    You are a helpful and friendly Office Assistant AI.\n    Answer questions based ONLY on the provided context below. \n    Keep answers short and professional.\n    "

/-- `full_system_prompt = f"{base_system_prompt}\n\nCONTEXT:\n{context}"`
(`app.py` line 547). -/
def full_system_prompt (context : String) : String :=
  base_system_prompt ++ "\n\nCONTEXT:\n" ++ context

/-- One chat turn, the `if prompt := st.chat_input(...)` handler (`app.py`
lines 530-587). The user message is appended before the `try` block; inside
it the completion call runs (outcome `completion`; `.error` models
`CompletionServiceError`, e.g. rate limiting, caught by the `except` at line
583, which only displays a message). On success the assistant message is
appended, the title recomputed, the session upserted into `full_history`,
and for non-guests the whole history written through to the identity's
file. -/
def chatTurn (s : AppState) (prompt : String) (completion : Except String String)
    (now : String) : AppState :=
  let s1 := { s with messages := s.messages ++ [⟨"user", prompt⟩] }
  match completion with
  | .error _ => s1
  | .ok responseText =>
    let msgs := s1.messages ++ [⟨"assistant", responseText⟩]
    let title := get_session_title msgs
    let h := upsert s1.full_history s1.current_session_id ⟨title, msgs, now⟩
    { s1 with
      messages := msgs
      full_history := h
      files := if s1.guest_mode then s1.files
               else save_history s1.files h s1.username }

/-- Modelled from the spec: the Corpus Chunker. The repository delegates
chunking to the third-party `RecursiveCharacterTextSplitter(chunk_size=1000,
chunk_overlap=200)` (`create_vector_db.py` lines 24-28, `app.py` lines
99-103), whose source is not part of this repository, so the chunker is
modelled from the spec's words: an ordered sequence of passages, each at most
the chunk size `C`, consecutive passages overlapping by the overlap size
`O`, and a corpus no longer than one chunk giving a single passage with the
whole corpus. The degenerate parameters `C ≤ O` fall back to a single
passage so the definition is total. -/
def split_text (C O : Nat) (s : List Char) : List (List Char) :=
  if h : s.length ≤ C ∨ C ≤ O then [s]
  else s.take C :: split_text C O (s.drop (C - O))
termination_by s.length
decreasing_by
  push_neg at h
  simp only [List.length_drop]
  omega

/-! ## Shared concrete instances -/

/-- A concrete application state used to instantiate theorems. -/
def sampleState : AppState :=
  { messages := []
    full_history := []
    current_session_id := "sid-0"
    guest_mode := false
    username := some "alice"
    files := fun _ => none }

/-- A concrete file-system state with no index and no corpus. -/
def emptyFS : FS := { faissIndex := none, knowledge := none }

/-! ## C1: state after a completion failure -/

/-- C1 (counterexample): the claim says that after a `CompletionServiceError`
the Session's message sequence is left exactly as before the turn began, the
just-appended user message being discarded. At the concrete state
`sampleState` with prompt `"hi"` and a failing completion, the in-memory
message list is NOT equal to the pre-turn list: the user message appended
before the `try` block (`app.py` line 531) is never removed by the `except`
handler. -/
theorem completionFailure_messages_not_restored :
    (chatTurn sampleState "hi" (.error "429 rate limited") "t0").messages ≠
      sampleState.messages := by
  decide

/-- C1 (amended): if the completion call fails, no upsert and no persist
occur — `full_history`, the durable files and the current session id are
exactly as before the turn — but the in-memory message list retains the
just-appended user message (and no assistant message is appended). -/
theorem completionFailure_store_intact :
    ∀ (s : AppState) (prompt err now : String),
      (chatTurn s prompt (.error err) now).full_history = s.full_history
      ∧ (chatTurn s prompt (.error err) now).files = s.files
      ∧ (chatTurn s prompt (.error err) now).current_session_id = s.current_session_id
      ∧ (chatTurn s prompt (.error err) now).messages =
          s.messages ++ [⟨"user", prompt⟩] := by
  intro s prompt err now
  exact ⟨rfl, rfl, rfl, rfl⟩

/-! ## C4: index build is all-or-nothing -/

/-- C4: an embedding failure during index build aborts the build and leaves
the durable artifacts untouched: both `load_faiss_index` (which catches the
failure and returns no index) and `create_vector_db` (where the failure
propagates before `save_local`) leave the file system exactly as it was, so
no partially embedded index is ever written. -/
theorem build_all_or_nothing :
    ∀ (fs : FS) (e : Unit) (loadOk : Bool),
      (load_faiss_index fs (.error e) loadOk).1 = fs
      ∧ create_vector_db fs (.error e) = fs := by
  intro fs e loadOk
  rcases fs with ⟨fi, kn⟩
  cases fi <;> cases kn <;> simp [load_faiss_index, create_vector_db]

/-! ## C7: retrieval degrades gracefully -/

/-- C7: if the similarity search (embedding + index lookup) raises, the
retrieval block returns no documents and an empty context string — the inner
`except` swallows every failure, so nothing propagates to the chat path; an
absent index likewise yields no documents. (`retrieveDocs` is a total
function, so no exception can escape it.) -/
theorem retrieval_degrades_gracefully :
    ∀ (vectorDb : Option Index) (e : Unit),
      retrieveDocs vectorDb (.error e) = []
      ∧ joinContext (retrieveDocs vectorDb (.error e)) = "" := by
  intro db e
  cases db <;> exact ⟨rfl, rfl⟩

/-! ## C8: empty-index scenario -/

/-- C8: with no corpus file and no persisted index, `load_faiss_index`
returns no index (and writes nothing), retrieval yields no documents, the
context block is the empty string, the system instruction is the fixed
preamble followed by the (empty) context block, and a chat turn with a
successful completion still succeeds, appending both the user and the
assistant message. -/
theorem empty_index_chat_succeeds :
    ∀ (fs : FS), fs.faissIndex = none → fs.knowledge = none →
    ∀ (embedRes : Except Unit Index) (loadOk : Bool)
      (searchRes : Except Unit (List String))
      (s : AppState) (prompt resp now : String),
      (load_faiss_index fs embedRes loadOk).1 = fs
      ∧ (load_faiss_index fs embedRes loadOk).2 = none
      ∧ retrieveDocs (load_faiss_index fs embedRes loadOk).2 searchRes = []
      ∧ full_system_prompt
          (joinContext (retrieveDocs (load_faiss_index fs embedRes loadOk).2 searchRes))
          = base_system_prompt ++ "\n\nCONTEXT:\n" ++ ""
      ∧ (chatTurn s prompt (.ok resp) now).messages =
          s.messages ++ [⟨"user", prompt⟩, ⟨"assistant", resp⟩] := by
  intro fs hfi hk embedRes loadOk searchRes s prompt resp now
  rcases fs with ⟨fi, kn⟩
  cases hfi
  cases hk
  refine ⟨rfl, rfl, rfl, rfl, ?_⟩
  simp [chatTurn]

/-- C8 witness: the conjunction instantiated at the concrete empty file
system, failing retrieval outcomes and `sampleState`. -/
theorem empty_index_chat_succeeds_witness :
    (load_faiss_index emptyFS (.error ()) false).1 = emptyFS
    ∧ (load_faiss_index emptyFS (.error ()) false).2 = none
    ∧ retrieveDocs (load_faiss_index emptyFS (.error ()) false).2 (.error ()) = []
    ∧ full_system_prompt
        (joinContext (retrieveDocs (load_faiss_index emptyFS (.error ()) false).2 (.error ())))
        = base_system_prompt ++ "\n\nCONTEXT:\n" ++ ""
    ∧ (chatTurn sampleState "hi" (.ok "hello") "t0").messages =
        sampleState.messages ++ [⟨"user", "hi"⟩, ⟨"assistant", "hello"⟩] :=
  empty_index_chat_succeeds emptyFS rfl rfl (.error ()) false (.error ())
    sampleState "hi" "hello" "t0"

/-! ## C6: session title derivation and stability -/

/-- Helper: `get_session_title` is determined by the first user-role message,
found via `List.find?`. -/
lemma get_session_title_eq_find (ms : List Message) :
    get_session_title ms =
      match ms.find? (fun x => x.role == "user") with
      | some m => m.content.take 30 ++ "..."
      | none => "New Chat" := by
  induction ms with
  | nil => rfl
  | cons m rest ih =>
    by_cases hm : m.role = "user"
    · simp [get_session_title, hm, List.find?]
    · have hb : (m.role == "user") = false := by
        simp [hm]
      simp [get_session_title, hm, List.find?, hb, ih]

/-- C6: the session title is the first 30 characters of the first user-role
message followed by `"..."`, or `"New Chat"` when the session has no user
message; and the title is stable under appending further messages once a
user message is present (so later turns, which only append, never change
it). -/
theorem title_derivation_and_stability :
    ∀ (ms : List Message),
      (∀ m : Message, ms.find? (fun x => x.role == "user") = some m →
        get_session_title ms = m.content.take 30 ++ "...")
      ∧ (ms.find? (fun x => x.role == "user") = none →
        get_session_title ms = "New Chat")
      ∧ (∀ extra : List Message, ms.any (fun x => x.role == "user") = true →
        get_session_title (ms ++ extra) = get_session_title ms) := by
  intro ms
  refine ⟨?_, ?_, ?_⟩
  · intro m hm
    rw [get_session_title_eq_find, hm]
  · intro hm
    rw [get_session_title_eq_find, hm]
  · intro extra hany
    induction ms with
    | nil => simp at hany
    | cons m rest ih =>
      by_cases hm : m.role = "user"
      · simp [get_session_title, hm]
      · have hb : (m.role == "user") = false := by simp [hm]
        simp only [List.any_cons, hb, Bool.false_or] at hany
        simp [get_session_title, hm, ih hany]

/-- C6 witness: the spec's example — first user message
`"Where is the printer?"` derives the title `"Where is the printer?..."`,
and the title is unchanged after a subsequent assistant turn. -/
theorem title_derivation_witness :
    get_session_title [⟨"user", "Where is the printer?"⟩] =
        ("Where is the printer?" : String).take 30 ++ "..."
      ∧ get_session_title ([⟨"user", "Where is the printer?"⟩] ++
          [⟨"assistant", "On floor 2."⟩, ⟨"user", "Thanks!"⟩]) =
        get_session_title [⟨"user", "Where is the printer?"⟩] :=
  ⟨(title_derivation_and_stability [⟨"user", "Where is the printer?"⟩]).1
      ⟨"user", "Where is the printer?"⟩ (by decide),
   (title_derivation_and_stability [⟨"user", "Where is the printer?"⟩]).2.2
      [⟨"assistant", "On floor 2."⟩, ⟨"user", "Thanks!"⟩] (by decide)⟩

/-! ## C5: identity isolation -/

/-- Helper: distinct identity strings yield distinct history file names. -/
lemma historyFile_injective :
    ∀ a b : String, historyFile a = historyFile b → a = b := by
  intro a b hab
  have hdata := congrArg String.data hab
  simp only [historyFile, String.data_append, List.append_assoc] at hdata
  have h1 := List.append_cancel_left hdata
  have h2 := List.append_cancel_right h1
  exact String.ext h2

/-- C5: sessions saved under identity `A` are invisible under a distinct
identity `B` and never touch `B`'s durable artifact: a `save_history` under
`A` leaves `B`'s history file byte-for-byte unchanged, `load_history` under
`B` therefore returns exactly what it returned before, and so does the
session listing derived from it. -/
theorem identity_isolation :
    ∀ (files : Files) (h : History) (A B : String), A ≠ B →
      save_history files h (some A) (historyFile B) = files (historyFile B)
      ∧ load_history (save_history files h (some A)) (some B) =
          load_history files (some B)
      ∧ list_sessions (load_history (save_history files h (some A)) (some B)) =
          list_sessions (load_history files (some B)) := by
  intro files h A B hAB
  have hfile : save_history files h (some A) (historyFile B) = files (historyFile B) := by
    by_cases hA : A = ""
    · simp [save_history, hA]
    · have hne : historyFile B ≠ historyFile A := by
        intro heq
        exact hAB (historyFile_injective A B heq.symm)
      simp [save_history, hA, hne]
  have hload : load_history (save_history files h (some A)) (some B) =
      load_history files (some B) := by
    by_cases hB : B = ""
    · simp [load_history, hB]
    · simp [load_history, hB, hfile]
  exact ⟨hfile, hload, congrArg list_sessions hload⟩

/-- C5 witness: instantiated at the empty file map and identities
`"alice"` and `"bob"`. -/
theorem identity_isolation_witness :
    save_history (fun _ => none) [] (some "alice") (historyFile "bob") =
        (fun _ => (none : Option History)) (historyFile "bob")
      ∧ load_history (save_history (fun _ => none) [] (some "alice")) (some "bob") =
          load_history (fun _ => none) (some "bob")
      ∧ list_sessions
            (load_history (save_history (fun _ => none) [] (some "alice")) (some "bob")) =
          list_sessions (load_history (fun _ => none) (some "bob")) :=
  identity_isolation (fun _ => none) [] "alice" "bob" (by decide)

/-! ## C9 and C10: the delete handler -/

/-- Helper: after a `del`, the key is gone from the history. -/
lemma hasKey_dictDelete (h : History) (k : String) :
    hasKey (dictDelete h k) k = false := by
  simp [hasKey, dictDelete, List.any_eq_true, List.mem_filter]

/-- Helper: deleting an absent session id is a no-op on the whole state. -/
lemma deleteSession_absent (s : AppState) (sid freshId : String)
    (hk : hasKey s.full_history sid = false) :
    deleteSession s sid freshId = s := by
  simp [deleteSession, hk]

/-- Helper: the history after a delete never contains the deleted id. -/
lemma deleteSession_full_history (s : AppState) (sid freshId : String) :
    (deleteSession s sid freshId).full_history =
      if hasKey s.full_history sid then dictDelete s.full_history sid
      else s.full_history := by
  by_cases hk : hasKey s.full_history sid
  · simp only [deleteSession, hk, if_true]
    by_cases hc : s.current_session_id = sid <;> simp [hc]
  · simp [deleteSession, hk]

/-- C9: deletion is idempotent — deleting an id absent from the scope
(including a second delete of the same id) produces no change at all, and
after a delete the session listing no longer contains that id. -/
theorem delete_idempotent :
    ∀ (s : AppState) (sid freshId freshId' : String),
      (hasKey s.full_history sid = false → deleteSession s sid freshId = s)
      ∧ deleteSession (deleteSession s sid freshId) sid freshId' =
          deleteSession s sid freshId
      ∧ ∀ e ∈ list_sessions (deleteSession s sid freshId).full_history, e.id ≠ sid := by
  intro s sid freshId freshId'
  refine ⟨deleteSession_absent s sid freshId, ?_, ?_⟩
  · by_cases hk : hasKey s.full_history sid
    · apply deleteSession_absent
      rw [deleteSession_full_history, if_pos hk]
      exact hasKey_dictDelete s.full_history sid
    · rw [deleteSession_absent s sid freshId (by simpa using hk),
          deleteSession_absent s sid freshId' (by simpa using hk)]
  · intro e he
    rw [deleteSession_full_history] at he
    by_cases hk : hasKey s.full_history sid
    · rw [if_pos hk] at he
      simp only [list_sessions, sessions_list, List.mem_reverse, List.mem_map] at he
      obtain ⟨p, hp, hpe⟩ := he
      simp only [dictDelete, List.mem_filter] at hp
      intro hid
      rcases hpe with rfl
      exact absurd (by simpa using hid) (by simpa using hp.2)
    · rw [if_neg hk] at he
      simp only [list_sessions, sessions_list, List.mem_reverse, List.mem_map] at he
      obtain ⟨p, hp, hpe⟩ := he
      intro hid
      rcases hpe with rfl
      simp only [hasKey] at hk
      apply hk
      simp only [List.any_eq_true]
      exact ⟨p, hp, by simpa using hid⟩

/-- C9 witness: at a concrete one-session state, deleting an absent id is the
identity, the double delete equals the single delete, and the listing after
the delete contains no entry with the deleted id. -/
theorem delete_idempotent_witness :
    (deleteSession
        { sampleState with full_history := [("s1", ⟨"T", [], "t1"⟩)] } "zz" "f1" =
      { sampleState with full_history := [("s1", ⟨"T", [], "t1"⟩)] })
    ∧ deleteSession
        (deleteSession
          { sampleState with full_history := [("s1", ⟨"T", [], "t1"⟩)] } "s1" "f1")
        "s1" "f2" =
      deleteSession
        { sampleState with full_history := [("s1", ⟨"T", [], "t1"⟩)] } "s1" "f1"
    ∧ ∀ e ∈ list_sessions
        (deleteSession
          { sampleState with full_history := [("s1", ⟨"T", [], "t1"⟩)] } "s1" "f1").full_history,
        e.id ≠ "s1" :=
  ⟨(delete_idempotent
      { sampleState with full_history := [("s1", ⟨"T", [], "t1"⟩)] } "zz" "f1" "f2").1
      (by decide),
   (delete_idempotent
      { sampleState with full_history := [("s1", ⟨"T", [], "t1"⟩)] } "s1" "f1" "f2").2.1,
   (delete_idempotent
      { sampleState with full_history := [("s1", ⟨"T", [], "t1"⟩)] } "s1" "f1" "f2").2.2⟩

/-- C10: deleting the currently-active session (when present in the scope)
resets the working conversation — the current session id becomes the freshly
generated id and the message list becomes empty — while deleting any other
session leaves the current session id and the in-memory message list
unchanged. -/
theorem delete_active_resets :
    ∀ (s : AppState) (sid freshId : String),
      (hasKey s.full_history sid = true → s.current_session_id = sid →
        (deleteSession s sid freshId).current_session_id = freshId
        ∧ (deleteSession s sid freshId).messages = [])
      ∧ (s.current_session_id ≠ sid →
        (deleteSession s sid freshId).current_session_id = s.current_session_id
        ∧ (deleteSession s sid freshId).messages = s.messages) := by
  intro s sid freshId
  constructor
  · intro hk hc
    simp [deleteSession, hk, hc]
  · intro hc
    by_cases hk : hasKey s.full_history sid
    · simp [deleteSession, hk, hc]
    · simp [deleteSession, hk]

/-- C10 witness: at a concrete state whose active session `"s1"` is in the
scope, deleting `"s1"` resets to the fresh id with no messages, and deleting
the other session `"s2"` leaves the active id and messages unchanged. -/
theorem delete_active_resets_witness :
    ((deleteSession
        { sampleState with
            full_history := [("s1", ⟨"T", [], "t1"⟩), ("s2", ⟨"U", [], "t2"⟩)],
            current_session_id := "s1",
            messages := [⟨"user", "hi"⟩] } "s1" "fresh").current_session_id = "fresh"
      ∧ (deleteSession
        { sampleState with
            full_history := [("s1", ⟨"T", [], "t1"⟩), ("s2", ⟨"U", [], "t2"⟩)],
            current_session_id := "s1",
            messages := [⟨"user", "hi"⟩] } "s1" "fresh").messages = [])
    ∧ ((deleteSession
        { sampleState with
            full_history := [("s1", ⟨"T", [], "t1"⟩), ("s2", ⟨"U", [], "t2"⟩)],
            current_session_id := "s1",
            messages := [⟨"user", "hi"⟩] } "s2" "fresh").current_session_id = "s1"
      ∧ (deleteSession
        { sampleState with
            full_history := [("s1", ⟨"T", [], "t1"⟩), ("s2", ⟨"U", [], "t2"⟩)],
            current_session_id := "s1",
            messages := [⟨"user", "hi"⟩] } "s2" "fresh").messages = [⟨"user", "hi"⟩]) :=
  ⟨(delete_active_resets
      { sampleState with
          full_history := [("s1", ⟨"T", [], "t1"⟩), ("s2", ⟨"U", [], "t2"⟩)],
          current_session_id := "s1",
          messages := [⟨"user", "hi"⟩] } "s1" "fresh").1 (by decide) (by decide),
   (delete_active_resets
      { sampleState with
          full_history := [("s1", ⟨"T", [], "t1"⟩), ("s2", ⟨"U", [], "t2"⟩)],
          current_session_id := "s1",
          messages := [⟨"user", "hi"⟩] } "s2" "fresh").2 (by decide)⟩

/-! ## C2: sidebar listing order -/

/-- C2 (counterexample): the claim says the most recently mutated (inserted
or updated) session appears first in the listing. Insert `"a"`, insert
`"b"`, then update `"a"` via upsert: Python dict assignment keeps an
existing key in its original position, and the sidebar shows the reversed
insertion order, so the listing is `["b", "a"]` — the most recently mutated
session `"a"` is NOT first (`"b"` is, and `"b" ≠ "a"`). -/
theorem upsert_update_not_first :
    (list_sessions
        (upsert (upsert (upsert [] "a" ⟨"A", [], "t1"⟩) "b" ⟨"B", [], "t2"⟩)
          "a" ⟨"A2", [], "t3"⟩)).map SessionSummary.id = ["b", "a"]
    ∧ ("b" : String) ≠ "a" := by
  constructor
  · decide
  · decide

/-- C2 (amended): the listing is in reverse insertion order — a session id
newly inserted by upsert appears first, while an upsert of an id already in
the scope replaces its data in place and leaves the id order of the listing
unchanged (so an updated older session keeps its position rather than moving
to the front). -/
theorem list_sessions_reverse_insertion_order :
    ∀ (h : History) (k : String) (v : SessionData),
      (hasKey h k = false →
        (list_sessions (upsert h k v)).map SessionSummary.id =
          k :: (list_sessions h).map SessionSummary.id)
      ∧ (hasKey h k = true →
        (list_sessions (upsert h k v)).map SessionSummary.id =
          (list_sessions h).map SessionSummary.id) := by
  intro h k v
  constructor
  · intro hk
    simp [list_sessions, sessions_list, upsert, hk]
  · intro hk
    have hmap : (upsert h k v).map (fun p => p.1) = h.map (fun p => p.1) := by
      simp only [upsert, hk, if_true, List.map_map]
      apply List.map_congr_left
      intro p _
      by_cases hp : p.1 = k <;> simp [hp]
    simp only [list_sessions, sessions_list, List.map_reverse, List.map_map]
    rw [show ((fun s => s.id) ∘ fun p : String × SessionData =>
          (⟨p.1, p.2.title, p.2.timestamp⟩ : SessionSummary)) = fun p => p.1 from rfl] at *
    rw [hmap]

/-- C2 witness: the amended theorem instantiated both ways — inserting a new
id `"c"` puts it first, and updating the existing id `"a"` leaves the id
order unchanged. -/
theorem list_sessions_reverse_insertion_order_witness :
    ((list_sessions (upsert [("a", ⟨"A", [], "t1"⟩), ("b", ⟨"B", [], "t2"⟩)]
          "c" ⟨"C", [], "t3"⟩)).map SessionSummary.id =
        "c" :: (list_sessions [("a", ⟨"A", [], "t1"⟩), ("b", ⟨"B", [], "t2"⟩)]).map
          SessionSummary.id)
    ∧ ((list_sessions (upsert [("a", ⟨"A", [], "t1"⟩), ("b", ⟨"B", [], "t2"⟩)]
          "a" ⟨"A2", [], "t3"⟩)).map SessionSummary.id =
        (list_sessions [("a", ⟨"A", [], "t1"⟩), ("b", ⟨"B", [], "t2"⟩)]).map
          SessionSummary.id) :=
  ⟨(list_sessions_reverse_insertion_order
      [("a", ⟨"A", [], "t1"⟩), ("b", ⟨"B", [], "t2"⟩)] "c" ⟨"C", [], "t3"⟩).1
      (by decide),
   (list_sessions_reverse_insertion_order
      [("a", ⟨"A", [], "t1"⟩), ("b", ⟨"B", [], "t2"⟩)] "a" ⟨"A2", [], "t3"⟩).2
      (by decide)⟩

/-! ## C3: the corpus chunker -/

/-- Helper: the chunker always produces at least one passage. -/
lemma split_text_ne_nil (C O : Nat) (s : List Char) :
    split_text C O s ≠ [] := by
  rw [split_text]
  split <;> simp

/-- Helper: the first passage starts with the first `O` characters of the
remaining corpus. -/
lemma split_text_headI_take (C O : Nat) (hO : O ≤ C) (s : List Char) :
    (split_text C O s).headI.take O = s.take O := by
  rw [split_text]
  split
  · simp
  · simp [List.take_take, inf_eq_left.mpr hO]

/-- Helper (fuel induction): every passage is at most `C` characters. -/
lemma split_text_length_le (C O : Nat) (hOC : O < C) :
    ∀ (n : Nat) (s : List Char), s.length ≤ n →
      ∀ c ∈ split_text C O s, c.length ≤ C := by
  intro n
  induction n with
  | zero =>
    intro s hs c hc
    rw [split_text] at hc
    rw [dif_pos (Or.inl (show s.length <= C by omega))] at hc
    simp only [List.mem_singleton] at hc
    subst hc
    omega
  | succ n ih =>
    intro s hs c hc
    rw [split_text] at hc
    by_cases h : s.length ≤ C ∨ C ≤ O
    · rw [dif_pos h] at hc
      simp only [List.mem_singleton] at hc
      subst hc
      omega
    · rw [dif_neg h] at hc
      push_neg at h
      simp only [List.mem_cons] at hc
      rcases hc with rfl | hc
      · simp [List.length_take]
      · exact ih (s.drop (C - O)) (by simp [List.length_drop]; omega) c hc

/-- Helper (fuel induction): each consecutive pair of passages overlaps in
exactly `O` characters — the last `O` characters of one passage are the
first `O` characters of the next, and that shared block has length exactly
`O`. -/
lemma split_text_chain (C O : Nat) (hOC : O < C) :
    ∀ (n : Nat) (s : List Char), s.length ≤ n →
      List.Chain'
        (fun p q => p.drop (p.length - O) = q.take O ∧ (q.take O).length = O)
        (split_text C O s) := by
  intro n
  induction n with
  | zero =>
    intro s hs
    rw [split_text, dif_pos (Or.inl (show s.length <= C by omega))]
    exact List.chain'_singleton s
  | succ n ih =>
    intro s hs
    rw [split_text]
    by_cases h : s.length ≤ C ∨ C ≤ O
    · rw [dif_pos h]
      exact List.chain'_singleton s
    · rw [dif_neg h]
      push_neg at h
      obtain ⟨hsC, hCO⟩ := h
      rw [List.chain'_cons']
      have hdroplen : (s.drop (C - O)).length = s.length - (C - O) := by
        simp [List.length_drop]
      have hOlt : O < (s.drop (C - O)).length := by omega
      constructor
      · intro q hq
        cases hsp : split_text C O (s.drop (C - O)) with
        | nil => exact absurd hsp (split_text_ne_nil C O (s.drop (C - O)))
        | cons a t =>
          rw [hsp] at hq
          simp only [List.head?_cons, Option.mem_some_iff] at hq
          have hhead : q.take O = (s.drop (C - O)).take O := by
            have hh := split_text_headI_take C O (Nat.le_of_lt hOC) (s.drop (C - O))
            rw [hsp] at hh
            rw [← hq]
            simpa using hh
          constructor
          · rw [hhead]
            have htlen : (s.take C).length = C := by
              simp [List.length_take]
              omega
            rw [htlen, List.drop_take]
            congr 1
            omega
          · rw [hhead]
            simp [List.length_take]
            omega
      · exact ih (s.drop (C - O)) (by omega)

/-- C3 (spec-modelled chunker): for every corpus, chunk size `C` and overlap
`O < C`, the chunker (a pure function, hence deterministic and reproducible
on identical inputs) produces passages each of at most `C` characters, each
consecutive pair of passages sharing exactly `O` overlapping characters (the
last `O` characters of one are the first `O` of the next), and a corpus no
longer than one chunk yields the single passage holding the whole corpus. -/
theorem chunker_correct :
    ∀ (C O : Nat) (s : List Char), O < C →
      (∀ c ∈ split_text C O s, c.length ≤ C)
      ∧ List.Chain'
          (fun p q => p.drop (p.length - O) = q.take O ∧ (q.take O).length = O)
          (split_text C O s)
      ∧ (s.length ≤ C → split_text C O s = [s]) := by
  intro C O s hOC
  refine ⟨split_text_length_le C O hOC s.length s (Nat.le_refl _),
          split_text_chain C O hOC s.length s (Nat.le_refl _), ?_⟩
  intro hs
  rw [split_text, dif_pos (Or.inl hs)]

/-- C3 witness: with the repository's parameters `C = 1000`, `O = 200`, a
short corpus yields the single passage containing the whole corpus. -/
theorem chunker_correct_witness :
    split_text 1000 200 "The printer is on floor 2.".data =
      ["The printer is on floor 2.".data] :=
  (chunker_correct 1000 200 "The printer is on floor 2.".data (by decide)).2.2
    (by decide)
